import Mathlib

/-!
Verification of the chapter metadata normalization engine of the
`publoader-extensions` repository (`src/mangaplus/mangaplus.py`).

The engine is embedded shallowly: Python strings become `String` operating on
`List Char` where convenient, `Optional[x]` becomes `Option`, raised
exceptions become `Except String` (the payload is the Python exception class
name), and CPython semantics of the relevant `str`/`re` operations are
reproduced on the ASCII alphabet that the data uses.
-/

namespace Mangaplus

/-! ## Python character classes and string helpers -/

/-- Python `\d` (ASCII): code points 48..57. -/
def pyIsDigit (c : Char) : Bool := decide (48 ≤ c.toNat ∧ c.toNat ≤ 57)

/-- Python `\s` (ASCII): space, \t, \n, \v, \f, \r. -/
def pyIsSpace (c : Char) : Bool := decide (c.toNat = 32 ∨ (9 ≤ c.toNat ∧ c.toNat ≤ 13))

/-- Python `string.punctuation`: the 32 ASCII punctuation characters. -/
def pyIsPunct (c : Char) : Bool :=
  decide ((33 ≤ c.toNat ∧ c.toNat ≤ 47) ∨ (58 ≤ c.toNat ∧ c.toNat ≤ 64) ∨
          (91 ≤ c.toNat ∧ c.toNat ≤ 96) ∨ (123 ≤ c.toNat ∧ c.toNat ≤ 126))

/-- ASCII lower-casing of one character, as `str.lower()` does on this data. -/
def pyLowerChar (c : Char) : Char :=
  if 65 ≤ c.toNat ∧ c.toNat ≤ 90 then Char.ofNat (c.toNat + 32) else c

/-- `str.lower()`. -/
def pyLower (s : String) : String := String.mk (s.toList.map pyLowerChar)

/-- `str(x)` on an `Optional[str]`: `None` prints as `"None"`. -/
def pyStr : Option String → String
  | none => "None"
  | some s => s

/-- Strip a character class from both ends of a character list. -/
def stripEnds (p : Char → Bool) (cs : List Char) : List Char :=
  ((cs.dropWhile p).reverse.dropWhile p).reverse

/-- `str.strip()` (no argument): trim whitespace at both ends. -/
def pyTrim (s : String) : String := String.mk (stripEnds pyIsSpace s.toList)

/-- `str.strip("#")`: trim `#` at both ends. -/
def stripHash (cs : List Char) : List Char := stripEnds (fun c => c == '#') cs

/-- `prefix.isPrefixOf`-style `str.startswith` on whole strings. -/
def pyStartsWith (p s : String) : Bool := p.toList.isPrefixOf s.toList

/-- Split on every character satisfying `p`, keeping empty segments — the
behaviour of both `str.split(",")` and `re.split` over a single-character
alternation such as `r"\.|\-"`. Always returns at least one segment. -/
def splitOn (p : Char → Bool) : List Char → List (List Char)
  | [] => [[]]
  | c :: rest =>
    let r := splitOn p rest
    if p c then [] :: r
    else
      match r with
      | [] => [[c]]
      | h :: t => (c :: h) :: t

/-- Join segments with `'.'`: `".".join(parts)`. -/
def joinDots : List (List Char) → List Char
  | [] => []
  | [x] => x
  | x :: xs => x ++ '.' :: joinDots xs

/-- A non-empty all-digit character list read as a natural number. -/
def parseDigits (cs : List Char) : Option Nat :=
  if cs ≠ [] ∧ cs.all pyIsDigit then
    some (cs.foldl (fun a c => a * 10 + (c.toNat - 48)) 0)
  else none

/-- Python `int(str)`: surrounding whitespace is ignored, an optional sign is
followed by one or more digits; anything else raises `ValueError`, which the
callers encode as `none` here. (Underscore digit grouping is not modelled;
no input in this repository's data uses it.) -/
def parseIntStr (s : String) : Option Int :=
  let cs := stripEnds pyIsSpace s.toList
  match cs with
  | '+' :: rest => (parseDigits rest).map Int.ofNat
  | '-' :: rest => (parseDigits rest).map (fun n => -(n : Int))
  | _ => (parseDigits cs).map Int.ofNat

/-- Decimal rendering of a natural number (`str(int)`), with fuel. -/
def natToStrAux : Nat → Nat → List Char
  | 0, _ => []
  | f + 1, n =>
    if n < 10 then [Char.ofNat (48 + n)]
    else natToStrAux f (n / 10) ++ [Char.ofNat (48 + n % 10)]

/-- `str(n)` for a natural number. -/
def natToStr (n : Nat) : String := String.mk (natToStrAux (n + 1) n)

/-- `str(i)` for a Python integer. -/
def intToStr (i : Int) : String :=
  if i < 0 then "-" ++ natToStr i.natAbs else natToStr i.natAbs

/-! ## Data model

Modelled from the spec: `RawChapterRecord` (§3) — the `Chapter` dataclass
itself lives in `publoader.models.dataclasses`, outside `src/`; its fields are
the ones `mangaplus.py` constructs in `_normalise_chapter_object`. Timestamps
are instants, modelled as integers. -/

structure Chapter where
  chapter_id : String
  chapter_url : String
  chapter_timestamp : Int
  chapter_title : Option String
  chapter_expire : Int
  chapter_number : Option String
  chapter_language : String
  manga_id : String
  md_manga_id : Option String
  manga_name : String
  manga_url : String
  extension_name : String
deriving DecidableEq

/-- Modelled from the spec: `OverrideConfig` (§3) — loaded by
`open_title_regex` (outside `src/`) from `override_options.json`; the tables
are the ones `_normalise_chapter_number` / `_normalise_chapter_title` read.
Mappings are association lists keyed by id. -/
structure OverrideConfig where
  override_chapter_numbers : List (String × String)
  multi_chapters : List (String × List String)
  empty : List String
  noformat : List String
  custom : List (String × String)
  num2words : Option (List String)

/-- `dict.get(key)` / `key in dict` over an association list. -/
def lookupAssoc {α : Type} (l : List (String × α)) (k : String) : Option α :=
  match l.find? (fun p => p.1 == k) with
  | some p => some p.2
  | none => none

/-- The all-empty override configuration. -/
def noOverrides : OverrideConfig := ⟨[], [], [], [], [], none⟩

/-! ## Number token utilities -/

/-- `_strip_chapter_number` (mangaplus.py:516-524): `str(number)`, trim
whitespace then `#`, split on `.` or `-`, strip leading zeros from the first
segment (all-zero becomes `"0"`), rejoin with `.`. -/
def strip_chapter_number (number : Option String) : String :=
  let stripped := stripHash (stripEnds pyIsSpace (pyStr number).toList)
  let parts := splitOn (fun c => c == '.' || c == '-') stripped
  let head0 := (parts.headD []).dropWhile (fun c => c == '0')
  let p0 := if head0 = [] then ['0'] else head0
  String.mk (joinDots (p0 :: parts.drop 1))

/-- `re.match(r"^#?(\d+)", s)` (mangaplus.py:497-499): an optional `#`
followed by at least one digit; returns the digit group. -/
def leadingIntMatch (cs : List Char) : Option (List Char) :=
  match cs with
  | '#' :: rest =>
    let d := rest.takeWhile pyIsDigit
    if d = [] then none else some d
  | _ =>
    let d := cs.takeWhile pyIsDigit
    if d = [] then none else some d

/-- `re.split(r"[\s<punctuation>]+", s)[0]` (mangaplus.py:504-507): the prefix
of `s` before the first whitespace/punctuation character. -/
def firstPunctToken (cs : List Char) : List Char :=
  cs.takeWhile (fun c => !(pyIsSpace c || pyIsPunct c))

/-! ## Neighbor resolver -/

/-- The scanning loop of `_get_surrounding_chapter` (mangaplus.py:496-514).
A scanned chapter whose `chapter_number` is `None` makes `re.match` raise
`TypeError`; otherwise the leading-integer extraction is tried and the
chapter is returned on success, else skipped. -/
def scanChapters : List Chapter → Except String (Option Chapter)
  | [] => .ok none
  | c :: rest =>
    match c.chapter_number with
    | none => .error "TypeError"
    | some s =>
      match leadingIntMatch s.toList with
      | some _ => .ok (some c)
      | none =>
        match parseIntStr (String.mk (firstPunctToken (stripHash s.toList))) with
        | some _ => .ok (some c)
        | none => scanChapters rest

/-- `_get_surrounding_chapter` (mangaplus.py:483-514): walk backward from the
chapter (exclusive) or forward from it (inclusive) in source order and return
the first record with an integer-bearing number. `list.index` raises
`ValueError` when the chapter is absent. -/
def get_surrounding_chapter (chapters : List Chapter) (chapter : Chapter)
    (next_chapter_search : Bool) : Except String (Option Chapter) :=
  match chapters.findIdx? (fun c => c == chapter) with
  | none => .error "ValueError"
  | some idx =>
    scanChapters (if next_chapter_search then chapters.drop idx
                  else (chapters.take idx).reverse)

/-! ## Number resolver -/

/-- mangaplus.py:543-550: the next anchor's number,
`int(re.split(r"\.|\-|\,", strip(next))[0]) - 1`; `int` raises `ValueError`
when the first segment is not an integer. -/
def nextAnchorNum : Option Chapter → Except String (Option Int)
  | none => .ok none
  | some nc =>
    let s := strip_chapter_number nc.chapter_number
    match parseIntStr (String.mk
        (s.toList.takeWhile (fun c => !(c == '.' || c == '-' || c == ',')))) with
    | some n => .ok (some (n - 1))
    | none => .error "ValueError"

/-- mangaplus.py:552-562: the previous anchor's base — the last comma segment
of the stripped number when it contains a comma, else its first dot/dash
segment. -/
def prevAnchorBase (number : Option String) : String :=
  let s := strip_chapter_number number
  if s.toList.contains ',' then
    String.mk ((splitOn (fun c => c == ',') s.toList).getLastD [])
  else
    String.mk ((splitOn (fun c => c == '.' || c == '-') s.toList).headD [])

/-- mangaplus.py:617-627: the non-"ex" literal-text shortcuts: `one-shot`
variants become `None`; a `spin-off`/`spin.off` prefix is removed from the
lower-cased number. `re.sub` is called with `re.I` in the positional `count`
slot, so at most `re.I == 2` occurrences are replaced and no flag is set;
the subject string is already lower-cased so this changes nothing here.
The sub removes leftmost occurrences of `(?:spin\-off|spin\.off)\s?`. -/
def spinOffSubAux : Nat → Nat → List Char → List Char
  | 0, _, cs => cs
  | _ + 1, 0, cs => cs
  | f + 1, cnt + 1, cs =>
    match cs with
    | [] => []
    | c :: rest =>
      let m8 : Option (List Char) :=
        if ['s', 'p', 'i', 'n', '-', 'o', 'f', 'f'].isPrefixOf (c :: rest) ∨
           ['s', 'p', 'i', 'n', '.', 'o', 'f', 'f'].isPrefixOf (c :: rest) then
          some ((c :: rest).drop 8)
        else none
      match m8 with
      | some rem =>
        match rem with
        | d :: rem2 =>
          if pyIsSpace d then spinOffSubAux f cnt rem2
          else spinOffSubAux f cnt rem
        | [] => spinOffSubAux f cnt []
      | none => c :: spinOffSubAux f (cnt + 1) rest

/-- `re.sub(r"(?:spin\-off|spin\.off)\s?", "", s, re.I)` — see
`spinOffSubAux`. -/
def spinOffSub (s : String) : String :=
  String.mk (spinOffSubAux (s.toList.length + 1) 2 s.toList)

/-- The literal-text shortcuts applied to a non-"ex" number
(mangaplus.py:617-627). -/
def nonExTransform : Option String → Option String
  | none => none
  | some s =>
    if pyLower s = "one-shot" ∨ pyLower s = "one.shot" then none
    else if pyStartsWith "spin-off" (pyLower s) || pyStartsWith "spin.off" (pyLower s) then
      some (pyTrim (spinOffSub (pyLower s)))
    else some s

/-- mangaplus.py:526-627: resolution of one raw chapter number to the final
`chapter_number` value (before the comma split and the strict validation).
The "ex" branch anchors to neighbors; its distance guard (lines 581-585)
tests `current_number != "ex"`, `math.sqrt((a-b)**2) >= 5` is `|a-b| >= 5`,
and `int` on a non-numeric string raises `ValueError`. When both anchors are
missing the decimal block's index names are unbound, which Python would
surface as `NameError`. -/
def resolveRawNumber (chapters : List Chapter) (chapter : Chapter) :
    Except String (Option String) :=
  let current := strip_chapter_number chapter.chapter_number
  let num0 : Option String :=
    match chapter.chapter_number with
    | none => none
    | some _ => some current
  if num0 = some "ex" then
    match get_surrounding_chapter chapters chapter false with
    | .error e => .error e
    | .ok prevC =>
      match get_surrounding_chapter chapters chapter true with
      | .error e => .error e
      | .ok nextC =>
        match nextAnchorNum nextC with
        | .error e => .error e
        | .ok nextNum =>
          let ba : Option String × Option (Chapter × Chapter) :=
            match prevC with
            | none =>
              match nextC with
              | none => (none, none)
              | some nc => (nextNum.map intToStr, some (nc, chapter))
            | some pc => (some (prevAnchorBase pc.chapter_number), some (chapter, pc))
          let num1 := ba.1
          let anchors := ba.2
          let num2 := if num1 = some "ex" then none else num1
          let guarded : Except String (Option String) :=
            match num2 with
            | none => .ok none
            | some s =>
              if current = "ex" then .ok (some s)
              else
                match parseIntStr current, parseIntStr s with
                | some a, some b => .ok (if 5 ≤ (a - b).natAbs then none else some s)
                | _, _ => .error "ValueError"
          match guarded with
          | .error e => .error e
          | .ok num3 =>
            match num3 with
            | none => .ok none
            | some b =>
              match anchors with
              | none => .error "NameError"
              | some fs =>
                let dec : String :=
                  match chapters.findIdx? (fun c => c == fs.1),
                        chapters.findIdx? (fun c => c == fs.2) with
                  | some i1, some i2 =>
                    let diff : Int := (i1 : Int) - (i2 : Int)
                    let d1 := if nextC = none then intToStr diff else "5"
                    if 1 < diff then
                      let sn := pyStr fs.2.chapter_number
                      if sn.toList.contains '.' then
                        match parseIntStr
                            (String.mk ((splitOn (fun c => c == '.') sn.toList).getLastD [])) with
                        | some d => intToStr (d + 1)
                        | none => d1
                      else intToStr diff
                    else d1
                  | _, _ => "5"
                .ok (some (b ++ "." ++ dec))
  else .ok (nonExTransform num0)

/-- Modelled from the spec: `chapter_number_regex`
(`publoader.utils.utils`, outside `src/`) — §4.1 `strict_number`: true iff
the text fully matches `^\d+(\.\d+)?$`. -/
def strictFrac : List Char → Bool
  | [] => false
  | c :: cs => pyIsDigit c && cs.all pyIsDigit

/-- Helper of `strict_number`: the characters after the leading digit. -/
def strictTail : List Char → Bool
  | [] => true
  | c :: cs => if pyIsDigit c then strictTail cs else (c == '.' && strictFrac cs)

/-- Modelled from the spec: §4.1 `strict_number(text)` — full match of
`^\d+(\.\d+)?$`. -/
def strict_number (s : String) : Bool :=
  match s.toList with
  | [] => false
  | c :: cs => pyIsDigit c && strictTail cs

/-- mangaplus.py:629-642: split the resolved number on `,`, strip each piece,
and replace every piece that does not match the strict pattern by `None`;
a `None` number yields the single-element list `[None]`. -/
def splitAndValidate (n : Option String) : List (Option String) :=
  match n with
  | none => [none]
  | some s =>
    ((splitOn (fun c => c == ',') s.toList).map
        (fun piece => strip_chapter_number (some (String.mk piece)))).map
      (fun num => if strict_number num then some num else none)

/-- mangaplus.py:644-660: the override step.
`override_chapter_numbers` wins first: the lookup is
`d.get(chapter_id, *returned_chapter_numbers)`, which raises `TypeError`
when the unpacked list supplies more than one extra positional argument;
with the key present and a singleton list it returns the override value.
Otherwise `multi_chapters` replaces the whole list. -/
def applyChapterOverrides (cfg : OverrideConfig) (chapter : Chapter)
    (nums : List (Option String)) : Except String (List (Option String)) :=
  match lookupAssoc cfg.override_chapter_numbers chapter.chapter_id with
  | some v => if nums.length ≤ 1 then .ok [some v] else .error "TypeError"
  | none =>
    match lookupAssoc cfg.multi_chapters chapter.chapter_id with
    | some m => .ok (m.map some)
    | none => .ok nums

/-- `_normalise_chapter_number` (mangaplus.py:526-660). -/
def normalise_chapter_number (cfg : OverrideConfig) (chapters : List Chapter)
    (chapter : Chapter) : Except String (List (Option String)) :=
  match resolveRawNumber chapters chapter with
  | .error e => .error e
  | .ok n => applyChapterOverrides cfg chapter (splitAndValidate n)

/-! ## A small regex interpreter

The title resolver's patterns (mangaplus.py:666-683) are transliterated into
an abstract syntax tree and run with Python `re` semantics: leftmost match,
greedy quantifiers with backtracking, alternation preferring the left
alternative. The interpreter is written in continuation-passing style with a
fuel parameter bounding the recursion depth. -/

/-- Character classes appearing in the patterns. -/
inductive RxCls where
  | digit
  | nonspace
  | space
  | oneOf (cs : List Char)

/-- Does a character match a class? -/
def RxCls.test : RxCls → Char → Bool
  | .digit, c => pyIsDigit c
  | .nonspace, c => !(pyIsSpace c)
  | .space, c => pyIsSpace c
  | .oneOf l, c => l.contains c

/-- `re.I` character comparison on ASCII: equal, or equal up to one case
step. -/
def ciEq (c d : Char) : Bool :=
  c == d ||
  (decide (65 ≤ c.toNat ∧ c.toNat ≤ 90) && decide (d.toNat = c.toNat + 32)) ||
  (decide (65 ≤ d.toNat ∧ d.toNat ≤ 90) && decide (c.toNat = d.toNat + 32))

/-- Regex syntax: classes, literal characters (case-insensitive when `ci`,
as all ladder patterns are compiled with `re.I`), sequencing, alternation,
greedy `?`, greedy `+`, greedy bounded repetition `{0,n}`, and the `$`
anchor. -/
inductive Rx where
  | eps
  | cls (k : RxCls)
  | chr (ci : Bool) (c : Char)
  | seq (a b : Rx)
  | alt (a b : Rx)
  | opt (a : Rx)
  | plus (a : Rx)
  | upTo (n : Nat) (a : Rx)
  | eos

/-- A size measure used only to compute a generous fuel bound. -/
def Rx.size : Rx → Nat
  | .eps => 1
  | .cls _ => 1
  | .chr _ _ => 1
  | .seq a b => a.size + b.size + 1
  | .alt a b => a.size + b.size + 1
  | .opt a => a.size + 1
  | .plus a => a.size + 2
  | .upTo n a => (n + 1) * (a.size + 1) + 1
  | .eos => 1

/-- Does a pattern character accept an input character? -/
def chrTest (ci : Bool) (c d : Char) : Bool := if ci then ciEq c d else c == d

/-- The backtracking matcher: `runk fuel r s k` matches `r` against a prefix
of `s` and passes every candidate remainder to the continuation `k` in
Python preference order, returning the first success. -/
def Rx.runk : Nat → Rx → List Char → (List Char → Option (List Char)) →
    Option (List Char)
  | 0, _, _, _ => none
  | f + 1, r, s, k =>
    match r with
    | .eps => k s
    | .cls p =>
      match s with
      | [] => none
      | c :: t => if p.test c then k t else none
    | .chr ci c =>
      match s with
      | [] => none
      | d :: t => if chrTest ci c d then k t else none
    | .seq a b => runk f a s (fun t => runk f b t k)
    | .alt a b => (runk f a s k).orElse (fun _ => runk f b s k)
    | .opt a => (runk f a s k).orElse (fun _ => k s)
    | .plus a => runk f a s (fun t => (runk f (.plus a) t k).orElse (fun _ => k t))
    | .upTo n a =>
      match n with
      | 0 => k s
      | m + 1 => (runk f a s (fun t => runk f (.upTo m a) t k)).orElse (fun _ => k s)
    | .eos =>
      match s with
      | [] => k []
      | _ :: _ => none

/-- `pattern.match(s)`: match at the start of `s`, returning the remainder
after the (preferred) matched prefix. -/
def Rx.matchRem (r : Rx) (s : String) : Option (List Char) :=
  Rx.runk ((s.toList.length + 2) * (r.size + 2)) r s.toList some

/-- `bool(pattern.match(s))`. -/
def rxMatch (r : Rx) (s : String) : Bool := (r.matchRem s).isSome

/-- A case-insensitive literal word. -/
def litCI (s : String) : Rx := s.toList.foldr (fun c r => .seq (.chr true c) r) .eps

/-- `(?:\S+\s?)?` — the optional leading token of the ladder patterns. -/
def optTok : Rx := .opt (.seq (.plus (.cls .nonspace)) (.opt (.cls .space)))

/-- `\d+(?:(?:[\,\-\.])\d{0,2})?` — the number part of the ladder patterns. -/
def numPart : Rx :=
  .seq (.plus (.cls .digit))
    (.opt (.seq (.cls (.oneOf [',', '-', '.'])) (.upTo 2 (.cls .digit))))

/-- mangaplus.py:666-668 — `^(?:\S+\s?)?\d+(?:(?:[\,\-\.])\d{0,2})?\s?[\:]\s?`. -/
def colon_regex : Rx :=
  .seq optTok (.seq numPart (.seq (.opt (.cls .space))
    (.seq (.cls (.oneOf [':'])) (.opt (.cls .space)))))

/-- mangaplus.py:669 — `^\S+\s?\d+(?:(?:[\,\-\.])\d{0,2})?$`. -/
def no_title_regex : Rx :=
  .seq (.plus (.cls .nonspace)) (.seq (.opt (.cls .space)) (.seq numPart .eos))

/-- mangaplus.py:670 — `^(?:\S+\s?)?#\d+(?:(?:[\,\-\.])\d{0,2})?\s?`. -/
def hashtag_regex : Rx :=
  .seq optTok (.seq (.chr true '#') (.seq numPart (.opt (.cls .space))))

/-- mangaplus.py:671-673 — `^(?:\S+\s?)?\d+(?:(?:[\,\-\.])\d{0,2})?\s?[\.\/\-]\s?`. -/
def period_dash_regex : Rx :=
  .seq optTok (.seq numPart (.seq (.opt (.cls .space))
    (.seq (.cls (.oneOf ['.', '/', '-'])) (.opt (.cls .space)))))

/-- mangaplus.py:674 — `^(?:\S+\s?)?\d+(?:(?:[\,\-\.])\d{0,2})?\s?`. -/
def spaces_regex : Rx :=
  .seq optTok (.seq numPart (.opt (.cls .space)))

/-- mangaplus.py:675-677 — `^(?:final|last)\s?(?:chapter|ep|episode)\s?[\:\.]\s?`. -/
def final_chapter_regex : Rx :=
  .seq (.alt (litCI "final") (litCI "last"))
    (.seq (.opt (.cls .space))
      (.seq (.alt (litCI "chapter") (.alt (litCI "ep") (litCI "episode")))
        (.seq (.opt (.cls .space))
          (.seq (.cls (.oneOf [':', '.'])) (.opt (.cls .space))))))

/-- The `num2words` alternation `_get_num2words_string` builds
(mangaplus.py:143-148): `"(" + "|".join(tokens) + ")"`. The tokens are
spliced as regex source text; they are plain words in the configuration, so
they are modelled as case-insensitive literals. -/
def altList : List Rx → Rx
  | [] => .eps
  | [x] => x
  | x :: xs => .alt x (altList xs)

/-- mangaplus.py:679-683 —
`^(?:\S+\s?)\s?{n2w}\s?(?:{n2w}\s?)?\:\s?` with `{n2w}` the joined
alternation. -/
def word_numbers_regex (tokens : List String) : Rx :=
  let g := altList (tokens.map litCI)
  .seq (.seq (.plus (.cls .nonspace)) (.opt (.cls .space)))
    (.seq (.opt (.cls .space))
      (.seq g
        (.seq (.opt (.cls .space))
          (.seq (.opt (.seq g (.opt (.cls .space))))
            (.seq (.chr true ':') (.opt (.cls .space)))))))

/-! ## Title resolver -/

/-- Which stripping rule was selected: an inline pattern, or a per-manga
custom pattern string. -/
inductive StripSpec where
  | rx (r : Rx)
  | custom (p : String)

/-- Remove the first literal occurrence of `p` from `s`. -/
def removeFirstOccur (p : List Char) : List Char → List Char
  | [] => []
  | c :: t =>
    if p.isPrefixOf (c :: t) then (c :: t).drop p.length
    else c :: removeFirstOccur p t

/-- Modelled from the spec: §3/§4.4 `custom: manga_id → regex pattern
string` — the pattern is compiled and substituted by Python `re`, which is
outside `src/`; it is modelled as removal of the first literal occurrence of
the pattern text. No claim exercises this branch. -/
def customSub (p s : String) : String :=
  String.mk (removeFirstOccur p.toList s.toList)

/-- `pattern_to_use.sub(repl="", string=original_title, count=1)`
(mangaplus.py:725-728): for an inline pattern this removes the leading match
(the pattern was selected because it matches at the start); with no match
the string is returned unchanged. -/
def applyStrip : StripSpec → String → String
  | .rx r, s =>
    match r.matchRem s with
    | some rem => String.mk rem
    | none => s
  | .custom p, s => customSub p s

/-- The fixed regex ladder (mangaplus.py:714-723), in source order: colon,
no-title, period/dash, hashtag, spaces. -/
def ladderChoose (original : String) : Option StripSpec :=
  if rxMatch colon_regex original then some (.rx colon_regex)
  else if rxMatch no_title_regex original then some (.rx no_title_regex)
  else if rxMatch period_dash_regex original then some (.rx period_dash_regex)
  else if rxMatch hashtag_regex original then some (.rx hashtag_regex)
  else if rxMatch spaces_regex original then some (.rx spaces_regex)
  else none

/-- mangaplus.py:709-723: the word-numbers rule (tried only when `num2words`
is configured), falling through to the fixed ladder. -/
def wordNumbersSpec (num2words : Option (List String)) (original : String) :
    Option StripSpec :=
  match num2words with
  | some tokens =>
    if rxMatch (word_numbers_regex tokens) original then
      some (.rx (word_numbers_regex tokens))
    else ladderChoose original
  | none => ladderChoose original

/-- `_normalise_chapter_title` (mangaplus.py:662-740): rule 1 nulls the
title for `empty`-manga with a fully non-null number list or for the literal
"final chapter"; `noformat` keeps the title; a custom pattern, the
final-chapter pattern, the word-numbers pattern (only when `num2words` is
configured) and then the fixed ladder are tried in order; the first match is
stripped from the front; finally titles equal (case-insensitively) to
`""`/`"none"`/`"null"` become `None`. A `None` input title is `str()`-coerced
to `"None"` before matching. -/
def normalise_chapter_title (cfg : OverrideConfig) (chapter : Chapter)
    (chapter_number : List (Option String)) : Option String :=
  let original_title := pyTrim (pyStr chapter.chapter_title)
  let normalised : Option String :=
    if (cfg.empty.contains chapter.manga_id && !(chapter_number.contains none)) ||
       (pyLower original_title == "final chapter") then
      none
    else if cfg.noformat.contains chapter.manga_id then
      some original_title
    else
      let pat : Option StripSpec :=
        match lookupAssoc cfg.custom chapter.manga_id with
        | some p => some (.custom p)
        | none =>
          if rxMatch final_chapter_regex original_title then
            some (.rx final_chapter_regex)
          else wordNumbersSpec cfg.num2words original_title
      match pat with
      | none => some original_title
      | some spec => some (pyTrim (applyStrip spec original_title))
  match normalised with
  | none => none
  | some t =>
    if pyLower t == "" || pyLower t == "none" || pyLower t == "null" then none
    else some t

/-- `normalise_chapter_fields` (mangaplus.py:757-773): resolve the number
list, resolve the title once, then explode the record into one copy per
number, each copy sharing the resolved title and all other fields. -/
def normalise_chapter_fields (cfg : OverrideConfig) (chapters : List Chapter)
    (chapter : Chapter) : Except String (List Chapter) :=
  match normalise_chapter_number cfg chapters chapter with
  | .error e => .error e
  | .ok nums =>
    let title := normalise_chapter_title cfg chapter nums
    .ok (nums.map (fun n =>
      { chapter with chapter_number := n, chapter_title := title }))

/-- Syntactic criterion: every string matched by the pattern must contain a
literal `':'`. Used to discharge the word-numbers branch for titles without a
colon, whatever the configured token list is. -/
def Rx.needsColon : Rx → Bool
  | .eps => false
  | .cls _ => false
  | .chr _ c => c == ':'
  | .seq a b => a.needsColon || b.needsColon
  | .alt a b => a.needsColon && b.needsColon
  | .opt _ => false
  | .plus a => a.needsColon
  | .upTo _ _ => false
  | .eos => false

/-! ## Concrete records used by the theorems -/

/-- A chapter record with the given ids, number and title; the remaining
fields hold fixed innocuous values. -/
def testChapter (cid mid : String) (num title : Option String) : Chapter :=
  ⟨cid, "", 0, title, 0, num, "en", mid, none, "", "", "mangaplus"⟩

/-- Series element `A(#1)`. -/
def chHash1 : Chapter := testChapter "a" "m" (some "#1") none

/-- Series element `B(ex)`. -/
def chEx : Chapter := testChapter "b" "m" (some "ex") none

/-- Series element `C(#3)`. -/
def chHash3 : Chapter := testChapter "c" "m" (some "#3") none

/-- Series element with the distant number `#100`. -/
def chHash100 : Chapter := testChapter "c" "m" (some "#100") none

/-- Series element whose raw number `#12abc` has an integer-bearing prefix
but no parseable integer after stripping. -/
def chGarbage : Chapter := testChapter "c" "m" (some "#12abc") none

/-- Series element `A(1.5)` — a dotted previous anchor. -/
def chDotAnchor : Chapter := testChapter "a" "m" (some "1.5") none

/-- An intermediate extra chapter between the dotted anchor and the target. -/
def chExMid : Chapter := testChapter "x" "m" (some "ex") none

/-- The series `[A(1.5), X(ex), B(ex)]` of the gap counterexample. -/
def gapSeries : List Chapter := [chDotAnchor, chExMid, chEx]

/-! ## Theorems -/

/-! ### Helper lemmas -/

/-- Rebuilding a string from its character list is the identity. -/
theorem mk_toList (s : String) : String.mk s.toList = s := rfl

/-- Splitting on a predicate no character satisfies yields one segment. -/
theorem splitOn_eq_single (p : Char → Bool) (cs : List Char)
    (h : ∀ c ∈ cs, p c = false) : splitOn p cs = [cs] := by
  induction cs with
  | nil => rfl
  | cons c t ih =>
    have hc : p c = false := h c (by simp)
    have ht : ∀ x ∈ t, p x = false := fun x hx => h x (by simp [hx])
    simp [splitOn, hc, ih ht]

/-- Every character of a fractional part is a digit. -/
theorem strictFrac_chars {cs : List Char} (h : strictFrac cs = true) :
    ∀ c ∈ cs, pyIsDigit c = true := by
  cases cs with
  | nil => exact absurd h (by simp [strictFrac])
  | cons c t =>
    simp only [strictFrac, Bool.and_eq_true, List.all_eq_true] at h
    intro x hx
    rcases List.mem_cons.mp hx with hx | hx
    · exact hx ▸ h.1
    · exact h.2 x hx

/-- Every character after the leading digit of a strict number is a digit or
a dot. -/
theorem strictTail_chars {cs : List Char} (h : strictTail cs = true) :
    ∀ c ∈ cs, pyIsDigit c = true ∨ c = '.' := by
  induction cs with
  | nil => simp
  | cons c t ih =>
    intro x hx
    by_cases hd : pyIsDigit c = true
    · rw [strictTail, if_pos hd] at h
      rcases List.mem_cons.mp hx with hx | hx
      · exact Or.inl (hx ▸ hd)
      · exact ih h x hx
    · rw [strictTail, if_neg hd] at h
      simp only [Bool.and_eq_true] at h
      obtain ⟨hdot, hfrac⟩ := h
      rcases List.mem_cons.mp hx with hx | hx
      · exact Or.inr (hx ▸ beq_iff_eq.mp hdot)
      · exact Or.inl (strictFrac_chars hfrac x hx)

/-- Every character of a strict number is a digit or a dot. -/
theorem strict_chars {s : String} (h : strict_number s = true) :
    ∀ c ∈ s.toList, pyIsDigit c = true ∨ c = '.' := by
  unfold strict_number at h
  intro x hx
  cases hs : s.toList with
  | nil => rw [hs] at hx; exact absurd hx (by simp)
  | cons c t =>
    rw [hs] at h hx
    simp only [Bool.and_eq_true] at h
    obtain ⟨hc, htail⟩ := h
    rcases List.mem_cons.mp hx with hx | hx
    · exact Or.inl (hx ▸ hc)
    · exact strictTail_chars htail x hx

/-- A strict number starts with a digit. -/
theorem strict_head {s : String} (h : strict_number s = true) :
    ∃ c t, s.toList = c :: t ∧ pyIsDigit c = true := by
  unfold strict_number at h
  cases hs : s.toList with
  | nil => rw [hs] at h; exact absurd h (by simp)
  | cons c t =>
    rw [hs] at h
    simp only [Bool.and_eq_true] at h
    exact ⟨c, t, rfl, h.1⟩

/-- Lower-casing leaves a digit unchanged. -/
theorem pyLowerChar_digit {c : Char} (h : pyIsDigit c = true) :
    pyLowerChar c = c := by
  unfold pyIsDigit at h
  have hr := of_decide_eq_true h
  exact if_neg (by omega)

/-- Lower-casing leaves a strict number unchanged. -/
theorem strict_pyLower {s : String} (h : strict_number s = true) :
    pyLower s = s := by
  have hmap : s.toList.map pyLowerChar = s.toList := by
    have hfix : ∀ c ∈ s.toList, pyLowerChar c = c := by
      intro c hc
      rcases strict_chars h c hc with hd | hd
      · exact pyLowerChar_digit hd
      · rw [hd]; rfl
    calc s.toList.map pyLowerChar = s.toList.map id := List.map_congr_left hfix
    _ = s.toList := List.map_id s.toList
  unfold pyLower
  rw [hmap]
  rfl

/-- A strict number does not start with either spin-off literal. -/
theorem strict_not_spin {s : String} (h : strict_number s = true) :
    pyStartsWith "spin-off" s = false ∧ pyStartsWith "spin.off" s = false := by
  obtain ⟨c, t, hs, hd⟩ := strict_head h
  have hne : ('s' == c) = false := by
    cases hbe : ('s' == c)
    · rfl
    · exfalso
      have hcs : c = 's' := (beq_iff_eq.mp hbe).symm
      rw [hcs] at hd
      exact absurd hd (by decide)
  have step : ∀ ps : List Char, List.isPrefixOf ('s' :: ps) (c :: t) = false := by
    intro ps
    simp only [List.isPrefixOf, hne, Bool.false_and]
  constructor
  · unfold pyStartsWith
    rw [hs, show String.toList "spin-off" = 's' :: ['p', 'i', 'n', '-', 'o', 'f', 'f'] from rfl]
    exact step _
  · unfold pyStartsWith
    rw [hs, show String.toList "spin.off" = 's' :: ['p', 'i', 'n', '.', 'o', 'f', 'f'] from rfl]
    exact step _

/-- Every element that `splitAndValidate` emits is either `none` or a
strict-pattern string. -/
theorem splitAndValidate_mem (n : Option String) (x : Option String)
    (hx : x ∈ splitAndValidate n) :
    x = none ∨ strict_number (x.getD "") = true := by
  cases n with
  | none =>
    simp only [splitAndValidate, List.mem_singleton] at hx
    exact Or.inl hx
  | some s =>
    simp only [splitAndValidate, List.mem_map] at hx
    obtain ⟨piece, _, hpx⟩ := hx
    by_cases hstrict : strict_number piece = true
    · rw [if_pos hstrict] at hpx
      right
      rw [← hpx]
      exact hstrict
    · rw [if_neg hstrict] at hpx
      exact Or.inl hpx.symm

/-- C2: in the series `[A(#1), B(ex), C(#3)]` with no overrides, `B`
resolves to the single-element list `["1.5"]`: the previous anchor `A`
supplies base `"1"`, the next neighbor `C` exists and the index gap is `1`,
so the decimal stays at its default `"5"`. -/
theorem ex_between_one_and_three_resolves_one_point_five :
    normalise_chapter_number noOverrides [chHash1, chEx, chHash3] chEx =
      .ok [some "1.5"] := by
  rfl

/-- C7: the distance guard of `_normalise_chapter_number` never discards a
resolved number, because its condition `current_number != "ex"` is
identically false inside the `"ex"` branch. Even with the previous anchor
`#1` and the next neighbor `#100` far apart, `B(ex)` is resolved to
`["1.5"]` instead of the `None` that the code's own comment (and the spec's
distance guard) prescribe. -/
theorem distance_guard_never_fires_example :
    normalise_chapter_number noOverrides [chHash1, chEx, chHash100] chEx =
      .ok [some "1.5"] := by
  rfl

/-- C3 counterexample: a non-numeric raw number in a scanned neighbor is not
recovered as null — resolving `B(ex)` in `[B(ex), C(#12abc)]` selects `C` as
the next anchor (its leading-integer match succeeds on `#12`), and
`int(re.split(...)[0])` on the stripped `"12abc"` then raises `ValueError`,
which propagates out of number resolution. -/
theorem next_anchor_garbage_raises_valueerror :
    normalise_chapter_number noOverrides [chEx, chGarbage] chEx =
      .error "ValueError" := by
  rfl

/-- C6 counterexample: with previous anchor `A(1.5)`, no forward neighbor,
and target `B(ex)` at index gap `2`, the synthesized decimal is not the gap:
because the gap exceeds `1` and the anchor's raw number contains a dot, the
decimal becomes `(5 + 1) = 6` and the result is `["1.6"]`, not the `["1.2"]`
the claim requires. -/
theorem prev_anchor_decimal_overrides_gap :
    normalise_chapter_number noOverrides gapSeries chEx = .ok [some "1.6"] ∧
    normalise_chapter_number noOverrides gapSeries chEx ≠ .ok [some "1.2"] ∧
    gapSeries.findIdx? (fun c => c == chEx) = some 2 ∧
    gapSeries.findIdx? (fun c => c == chDotAnchor) = some 0 := by
  refine ⟨rfl, ?_, rfl, rfl⟩
  intro h
  have h16 : normalise_chapter_number noOverrides gapSeries chEx =
      Except.ok [some "1.6"] := rfl
  have h2 : ([some "1.6"] : List (Option String)) = [some "1.2"] :=
    Except.ok.inj (h16.symm.trans h)
  exact absurd h2 (by decide)

/-- C9 counterexample: `"012"` fully matches `^\d+(\.\d+)?$`, but resolving
a record whose raw number is `"012"` (no overrides) returns `["12"]` — the
leading zero is stripped, so strict-pattern strings do not all pass through
unchanged. -/
theorem leading_zero_not_idempotent :
    strict_number "012" = true ∧
    normalise_chapter_number noOverrides [testChapter "z" "m" (some "012") none]
      (testChapter "z" "m" (some "012") none) = .ok [some "12"] ∧
    normalise_chapter_number noOverrides [testChapter "z" "m" (some "012") none]
      (testChapter "z" "m" (some "012") none) ≠ .ok [some "012"] := by
  refine ⟨rfl, rfl, ?_⟩
  intro h
  have h12 : normalise_chapter_number noOverrides
      [testChapter "z" "m" (some "012") none]
      (testChapter "z" "m" (some "012") none) = Except.ok [some "12"] := rfl
  have h2 : ([some "12"] : List (Option String)) = [some "012"] :=
    Except.ok.inj (h12.symm.trans h)
  exact absurd h2 (by decide)

/-- C1 counterexample: with the override table mapping this chapter id to
the non-numeric string `"abc"`, number resolution returns `["abc"]` — an
override value bypasses the strict-pattern validation, so over all override
configurations the returned list can contain malformed non-null strings. -/
theorem override_value_bypasses_validation :
    normalise_chapter_number ⟨[("c1", "abc")], [], [], [], [], none⟩
      [testChapter "c1" "m" (some "5") none]
      (testChapter "c1" "m" (some "5") none) = .ok [some "abc"] ∧
    strict_number "abc" = false := by
  exact ⟨rfl, rfl⟩

/-- C4 counterexample: for a record whose computed number list has two
elements (raw number `"12,13"`) and whose chapter id is a key of
`override_chapter_numbers`, resolution does not return the override value —
`d.get(chapter_id, *returned_chapter_numbers)` receives three arguments and
raises `TypeError`. -/
theorem override_on_multi_number_raises_typeerror :
    normalise_chapter_number ⟨[("c1", "7.5")], [], [], [], [], none⟩
      [testChapter "c1" "m" (some "12,13") none]
      (testChapter "c1" "m" (some "12,13") none) = .error "TypeError" := by
  rfl

/-- C1 (amended): for every series, record and override configuration whose
two override tables do not apply to the record, every non-null string in a
successfully returned number list fully matches the strict dotted-decimal
pattern; non-matching pieces are replaced by null. -/
theorem computed_numbers_match_strict_pattern :
    ∀ (cfg : OverrideConfig) (chapters : List Chapter) (chapter : Chapter)
      (l : List (Option String)),
      lookupAssoc cfg.override_chapter_numbers chapter.chapter_id = none →
      lookupAssoc cfg.multi_chapters chapter.chapter_id = none →
      normalise_chapter_number cfg chapters chapter = .ok l →
      ∀ x, x ∈ l → x = none ∨ strict_number (x.getD "") = true := by
  intro cfg chapters chapter l h1 h2 hres x hx
  unfold normalise_chapter_number at hres
  cases hr : resolveRawNumber chapters chapter with
  | error e =>
    rw [hr] at hres
    exact absurd hres (by simp)
  | ok n =>
    rw [hr] at hres
    unfold applyChapterOverrides at hres
    rw [h1, h2] at hres
    have hl : splitAndValidate n = l := Except.ok.inj hres
    rw [← hl] at hx
    exact splitAndValidate_mem n x hx

/-- C1 witness: instantiating the validation theorem on the one-record
series with raw number `"5"` and no overrides, at the emitted piece
`some "5"`. -/
theorem computed_numbers_match_strict_pattern_witness :
    (some "5" : Option String) = none ∨
    strict_number ((some "5" : Option String).getD "") = true :=
  computed_numbers_match_strict_pattern noOverrides
    [testChapter "z" "m" (some "5") none] (testChapter "z" "m" (some "5") none)
    [some "5"] rfl rfl rfl (some "5") (by decide)

/-- C3 (amended): number resolution with no applicable overrides returns
`[None]` without an exception when the target's raw number is null, and when
an "ex" chapter's two neighbor scans complete without error and find no
integer-bearing neighbor; malformed numbers encountered *during* the scans
are not recovered (a null neighbor number raises `TypeError`, and a selected
next anchor whose stripped number is not an integer raises `ValueError`). -/
theorem ex_without_anchor_yields_none :
    ∀ (cfg : OverrideConfig) (chapters : List Chapter) (chapter : Chapter),
      lookupAssoc cfg.override_chapter_numbers chapter.chapter_id = none →
      lookupAssoc cfg.multi_chapters chapter.chapter_id = none →
      ((chapter.chapter_number = none →
        normalise_chapter_number cfg chapters chapter = .ok [none]) ∧
       (∀ raw, chapter.chapter_number = some raw →
        strip_chapter_number (some raw) = "ex" →
        get_surrounding_chapter chapters chapter false = .ok none →
        get_surrounding_chapter chapters chapter true = .ok none →
        normalise_chapter_number cfg chapters chapter = .ok [none])) := by
  intro cfg chapters chapter h1 h2
  constructor
  · intro hnum
    have hres : resolveRawNumber chapters chapter = .ok none := by
      unfold resolveRawNumber
      rw [hnum]
      rfl
    unfold normalise_chapter_number
    rw [hres]
    unfold applyChapterOverrides
    rw [h1, h2]
    rfl
  · intro raw hnum hstrip hprev hnext
    have hres : resolveRawNumber chapters chapter = .ok none := by
      unfold resolveRawNumber
      rw [hnum, hstrip, if_pos rfl, hprev, hnext]
      rfl
    unfold normalise_chapter_number
    rw [hres]
    unfold applyChapterOverrides
    rw [h1, h2]
    rfl

/-- C3 witness: the no-anchor theorem applied to a null-number record and to
a one-record series containing only the "ex" chapter. -/
theorem ex_without_anchor_yields_none_witness :
    normalise_chapter_number noOverrides [testChapter "n" "m" none none]
      (testChapter "n" "m" none none) = .ok [none] ∧
    normalise_chapter_number noOverrides [chEx] chEx = .ok [none] := by
  constructor
  · exact (ex_without_anchor_yields_none noOverrides
      [testChapter "n" "m" none none] (testChapter "n" "m" none none) rfl rfl).1 rfl
  · exact (ex_without_anchor_yields_none noOverrides [chEx] chEx rfl rfl).2
      "ex" rfl rfl rfl rfl

/-- C4 (amended): when no exception interrupts resolution,
`override_chapter_numbers` takes precedence and forces the single-element
override list — but only when the computed list is a singleton (a longer
computed list makes the `dict.get(key, *list)` call raise `TypeError`);
otherwise `multi_chapters` replaces the whole computed list. -/
theorem override_precedence_on_singleton :
    ∀ (cfg : OverrideConfig) (chapters : List Chapter) (chapter : Chapter)
      (n : Option String),
      resolveRawNumber chapters chapter = .ok n →
      ((∀ v, lookupAssoc cfg.override_chapter_numbers chapter.chapter_id = some v →
        (splitAndValidate n).length = 1 →
        normalise_chapter_number cfg chapters chapter = .ok [some v]) ∧
       (lookupAssoc cfg.override_chapter_numbers chapter.chapter_id = none →
        ∀ m, lookupAssoc cfg.multi_chapters chapter.chapter_id = some m →
        normalise_chapter_number cfg chapters chapter = .ok (m.map some))) := by
  intro cfg chapters chapter n hres
  constructor
  · intro v hov hlen
    simp [normalise_chapter_number, hres, applyChapterOverrides, hov, hlen]
  · intro hov m hmc
    simp [normalise_chapter_number, hres, applyChapterOverrides, hov, hmc]

/-- C4 witness: the override `"7.5"` applied to a singleton computed list,
and a `multi_chapters` replacement `["4", "5"]`. -/
theorem override_precedence_on_singleton_witness :
    normalise_chapter_number ⟨[("c1", "7.5")], [], [], [], [], none⟩
      [testChapter "c1" "m" (some "5") none]
      (testChapter "c1" "m" (some "5") none) = .ok [some "7.5"] ∧
    normalise_chapter_number ⟨[], [("c2", ["4", "5"])], [], [], [], none⟩
      [testChapter "c2" "m" (some "1") none]
      (testChapter "c2" "m" (some "1") none) = .ok [some "4", some "5"] := by
  constructor
  · exact (override_precedence_on_singleton ⟨[("c1", "7.5")], [], [], [], [], none⟩
      [testChapter "c1" "m" (some "5") none]
      (testChapter "c1" "m" (some "5") none) (some "5") rfl).1 "7.5" rfl rfl
  · exact (override_precedence_on_singleton ⟨[], [("c2", ["4", "5"])], [], [], [], none⟩
      [testChapter "c2" "m" (some "1") none]
      (testChapter "c2" "m" (some "1") none) (some "1") rfl).2 rfl ["4", "5"] rfl

/-- C5: a record with raw number `"12,13"` and no applicable overrides is
exploded into exactly two normalized entries, numbered `"12"` then `"13"` in
the comma-given order, sharing one resolved title and identical copies of
every other field of the source record. -/
theorem comma_number_explodes_into_two_chapters :
    ∀ (cfg : OverrideConfig) (chapters : List Chapter) (chapter : Chapter),
      chapter.chapter_number = some "12,13" →
      lookupAssoc cfg.override_chapter_numbers chapter.chapter_id = none →
      lookupAssoc cfg.multi_chapters chapter.chapter_id = none →
      normalise_chapter_fields cfg chapters chapter = .ok
        [{ chapter with
            chapter_number := some "12",
            chapter_title := normalise_chapter_title cfg chapter [some "12", some "13"] },
         { chapter with
            chapter_number := some "13",
            chapter_title := normalise_chapter_title cfg chapter [some "12", some "13"] }] := by
  intro cfg chapters chapter hnum h1 h2
  have hres : resolveRawNumber chapters chapter = .ok (some "12,13") := by
    unfold resolveRawNumber
    rw [hnum]
    rfl
  have hnums : normalise_chapter_number cfg chapters chapter =
      .ok [some "12", some "13"] := by
    unfold normalise_chapter_number
    rw [hres]
    unfold applyChapterOverrides
    rw [h1, h2]
    rfl
  unfold normalise_chapter_fields
  rw [hnums]
  rfl

/-- C5 witness: the explosion theorem applied to a concrete record, with the
shared title and the copied fields evaluated. -/
theorem comma_number_explodes_into_two_chapters_witness :
    normalise_chapter_fields noOverrides [testChapter "x" "m" (some "12,13") (some "T")]
      (testChapter "x" "m" (some "12,13") (some "T")) = .ok
      [testChapter "x" "m" (some "12") (some "T"),
       testChapter "x" "m" (some "13") (some "T")] := by
  have h := comma_number_explodes_into_two_chapters noOverrides
    [testChapter "x" "m" (some "12,13") (some "T")]
    (testChapter "x" "m" (some "12,13") (some "T")) rfl rfl rfl
  exact h.trans rfl

/-- C9 (amended): a string that fully matches the strict dotted-decimal
pattern *and* is already in stripped form (no redundant leading zeros in its
integer part) passes through number resolution unchanged: with no applicable
overrides the result is exactly `[s]`. -/
theorem strict_stripped_numbers_pass_through :
    ∀ (cfg : OverrideConfig) (chapters : List Chapter) (chapter : Chapter)
      (s : String),
      chapter.chapter_number = some s →
      strict_number s = true →
      strip_chapter_number (some s) = s →
      lookupAssoc cfg.override_chapter_numbers chapter.chapter_id = none →
      lookupAssoc cfg.multi_chapters chapter.chapter_id = none →
      normalise_chapter_number cfg chapters chapter = .ok [some s] := by
  intro cfg chapters chapter s hnum hstrict hstri h1 h2
  have hne : s ≠ "ex" := by
    intro he
    rw [he] at hstrict
    exact absurd hstrict (by decide)
  have hnx : nonExTransform (some s) = some s := by
    simp only [nonExTransform, strict_pyLower hstrict]
    rw [if_neg, if_neg]
    · rw [(strict_not_spin hstrict).1, (strict_not_spin hstrict).2]
      simp
    · intro hcon
      rcases hcon with hcon | hcon <;> rw [hcon] at hstrict <;>
        exact absurd hstrict (by decide)
  have hres : resolveRawNumber chapters chapter = .ok (some s) := by
    unfold resolveRawNumber
    rw [hnum, hstri, if_neg (by simpa using hne)]
    show Except.ok (nonExTransform (some s)) = Except.ok (some s)
    rw [hnx]
  have hsv : splitAndValidate (some s) = [some s] := by
    have hnc : ∀ c ∈ s.toList, (c == ',') = false := by
      intro c hc
      rcases strict_chars hstrict c hc with hd | hd
      · cases hbe : (c == ',')
        · rfl
        · exfalso
          rw [beq_iff_eq.mp hbe] at hd
          exact absurd hd (by decide)
      · rw [hd]; rfl
    simp only [splitAndValidate]
    rw [splitOn_eq_single _ _ hnc]
    simp only [List.map_cons, List.map_nil, mk_toList, hstri, hstrict]
    simp
  simp [normalise_chapter_number, hres, applyChapterOverrides, h1, h2, hsv]

/-- C6 (amended): during "ex" resolution with a previous anchor found and no
forward neighbor, the decimal suffix of the synthesized number equals the
index gap between the target and the previous anchor — unless the gap
exceeds 1 and the anchor's raw number contains a dot whose last dot-segment
parses as an integer, in which case that integer plus one is used instead. -/
theorem no_next_decimal_equals_gap_unless_dotted_anchor :
    ∀ (chapters : List Chapter) (chapter p : Chapter) (raw praw : String)
      (i j : Nat),
      chapter.chapter_number = some raw →
      strip_chapter_number (some raw) = "ex" →
      get_surrounding_chapter chapters chapter false = .ok (some p) →
      get_surrounding_chapter chapters chapter true = .ok none →
      p.chapter_number = some praw →
      prevAnchorBase (some praw) ≠ "ex" →
      List.findIdx? (fun c => c == chapter) chapters = some i →
      List.findIdx? (fun c => c == p) chapters = some j →
      ¬((1 : Int) < (i : Int) - (j : Int) ∧ praw.toList.contains '.' = true ∧
        (parseIntStr (String.mk
          ((splitOn (fun c => c == '.') praw.toList).getLastD []))).isSome = true) →
      resolveRawNumber chapters chapter =
        .ok (some (prevAnchorBase (some praw) ++ "." ++
          intToStr ((i : Int) - (j : Int)))) := by
  intro chapters chapter p raw praw i j hraw hstrip hprev hnext hpraw hbase hi hj hguard
  unfold resolveRawNumber
  rw [hraw, hstrip, if_pos rfl, hprev, hnext]
  simp only [nextAnchorNum, hpraw, hi, hj]
  rw [if_neg (by simpa using hbase)]
  simp only [if_true, pyStr]
  by_cases hdiff : (1 : Int) < (i : Int) - (j : Int)
  · rw [if_pos hdiff]
    by_cases hdot : praw.toList.contains '.' = true
    · have hparse : parseIntStr (String.mk
          ((splitOn (fun c => c == '.') praw.toList).getLastD [])) = none := by
        cases hp : parseIntStr (String.mk
            ((splitOn (fun c => c == '.') praw.toList).getLastD []))
        · rfl
        · exact absurd ⟨hdiff, hdot, by rw [hp]; rfl⟩ hguard
      rw [if_pos hdot, hparse]
    · rw [if_neg hdot]
  · rw [if_neg hdiff]

/-- C6 witness: in `[A(#1), B(ex)]` the previous anchor is `A`, there is no
forward neighbor, the index gap is `1`, and `B` synthesizes `1.1`. -/
theorem no_next_decimal_equals_gap_unless_dotted_anchor_witness :
    resolveRawNumber [chHash1, chEx] chEx = .ok (some "1.1") := by
  have h := no_next_decimal_equals_gap_unless_dotted_anchor [chHash1, chEx]
    chEx chHash1 "ex" "#1" 1 0 rfl rfl rfl rfl rfl (by decide) rfl rfl (by decide)
  exact h.trans rfl

/-- C9 witness: the pass-through theorem applied to the strict, already
stripped number `"12.5"`. -/
theorem strict_stripped_numbers_pass_through_witness :
    normalise_chapter_number noOverrides [testChapter "z" "m" (some "12.5") none]
      (testChapter "z" "m" (some "12.5") none) = .ok [some "12.5"] :=
  strict_stripped_numbers_pass_through noOverrides
    [testChapter "z" "m" (some "12.5") none]
    (testChapter "z" "m" (some "12.5") none) "12.5" rfl rfl rfl rfl rfl

/-- The matcher hands the continuation a suffix of its input. -/
theorem runk_suffix :
    ∀ (f : Nat) (r : Rx) (s : List Char) (k : List Char → Option (List Char))
      (t : List Char),
      Rx.runk f r s k = some t → ∃ u, u <:+ s ∧ k u = some t := by
  intro f
  induction f with
  | zero =>
    intro r s k t h
    exact absurd h (by simp [Rx.runk])
  | succ f ih =>
    intro r s k t h
    cases r with
    | eps => exact ⟨s, List.suffix_rfl, h⟩
    | cls p =>
      cases s with
      | nil => exact absurd h (by simp [Rx.runk])
      | cons c u =>
        simp only [Rx.runk] at h
        by_cases hc : p.test c = true
        · rw [if_pos hc] at h
          exact ⟨u, List.suffix_cons c u, h⟩
        · rw [if_neg hc] at h
          exact absurd h (by simp)
    | chr ci c =>
      cases s with
      | nil => exact absurd h (by simp [Rx.runk])
      | cons d u =>
        simp only [Rx.runk] at h
        by_cases hc : chrTest ci c d = true
        · rw [if_pos hc] at h
          exact ⟨u, List.suffix_cons d u, h⟩
        · rw [if_neg hc] at h
          exact absurd h (by simp)
    | seq a b =>
      simp only [Rx.runk] at h
      obtain ⟨u1, hu1, hb⟩ := ih a s _ t h
      obtain ⟨u2, hu2, hk⟩ := ih b u1 k t hb
      exact ⟨u2, hu2.trans hu1, hk⟩
    | alt a b =>
      simp only [Rx.runk] at h
      cases ha : Rx.runk f a s k with
      | some v =>
        rw [ha] at h
        simp only [Option.orElse] at h
        exact h ▸ ih a s k t (ha.trans h)
      | none =>
        rw [ha] at h
        simp only [Option.orElse] at h
        exact ih b s k t h
    | opt a =>
      simp only [Rx.runk] at h
      cases ha : Rx.runk f a s k with
      | some v =>
        rw [ha] at h
        simp only [Option.orElse] at h
        exact ih a s k t (ha.trans h)
      | none =>
        rw [ha] at h
        simp only [Option.orElse] at h
        exact ⟨s, List.suffix_rfl, h⟩
    | plus a =>
      simp only [Rx.runk] at h
      obtain ⟨u1, hu1, hk1⟩ := ih a s _ t h
      cases hmore : Rx.runk f (Rx.plus a) u1 k with
      | some v =>
        rw [hmore] at hk1
        simp only [Option.orElse] at hk1
        obtain ⟨u2, hu2, hk2⟩ := ih (Rx.plus a) u1 k t (hmore.trans hk1)
        exact ⟨u2, hu2.trans hu1, hk2⟩
      | none =>
        rw [hmore] at hk1
        simp only [Option.orElse] at hk1
        exact ⟨u1, hu1, hk1⟩
    | upTo n a =>
      cases n with
      | zero =>
        simp only [Rx.runk] at h
        exact ⟨s, List.suffix_rfl, h⟩
      | succ m =>
        simp only [Rx.runk] at h
        cases ha : Rx.runk f a s (fun u => Rx.runk f (Rx.upTo m a) u k) with
        | some v =>
          rw [ha] at h
          simp only [Option.orElse] at h
          obtain ⟨u1, hu1, hrest⟩ := ih a s _ t (ha.trans h)
          obtain ⟨u2, hu2, hk⟩ := ih (Rx.upTo m a) u1 k t hrest
          exact ⟨u2, hu2.trans hu1, hk⟩
        | none =>
          rw [ha] at h
          simp only [Option.orElse] at h
          exact ⟨s, List.suffix_rfl, h⟩
    | eos =>
      cases s with
      | nil =>
        simp only [Rx.runk] at h
        exact ⟨[], List.suffix_rfl, h⟩
      | cons c u => exact absurd h (by simp [Rx.runk])

/-- A pattern character that insists on `':'` under `re.I` accepts only
`':'` itself. -/
theorem chrTest_colon {ci : Bool} {d : Char} (h : chrTest ci ':' d = true) :
    d = ':' := by
  unfold chrTest at h
  by_cases hci : ci = true
  · rw [if_pos hci] at h
    unfold ciEq at h
    simp only [Bool.or_eq_true, Bool.and_eq_true, beq_iff_eq,
      decide_eq_true_eq] at h
    rcases h with (h | h) | h
    · exact h.symm
    · exact absurd h.1 (by decide)
    · obtain ⟨⟨h1, _⟩, h3⟩ := h
      have h3n : 58 = d.toNat + 32 := h3
      omega
  · rw [if_neg hci] at h
    exact (beq_iff_eq.mp h).symm

/-- A pattern that syntactically requires a colon only matches strings
containing one. -/
theorem runk_needsColon :
    ∀ (f : Nat) (r : Rx) (s : List Char) (k : List Char → Option (List Char))
      (t : List Char),
      r.needsColon = true → Rx.runk f r s k = some t → ':' ∈ s := by
  intro f
  induction f with
  | zero =>
    intro r s k t _ h
    exact absurd h (by simp [Rx.runk])
  | succ f ih =>
    intro r s k t hn h
    cases r with
    | eps => exact absurd hn (by simp [Rx.needsColon])
    | cls p => exact absurd hn (by simp [Rx.needsColon])
    | chr ci c =>
      have hc : c = ':' := by
        simpa [Rx.needsColon] using hn
      cases s with
      | nil => exact absurd h (by simp [Rx.runk])
      | cons d u =>
        simp only [Rx.runk] at h
        by_cases ht : chrTest ci c d = true
        · have hd : d = ':' := chrTest_colon (hc ▸ ht)
          exact hd ▸ List.mem_cons_self d u
        · rw [if_neg ht] at h
          exact absurd h (by simp)
    | seq a b =>
      simp only [Rx.needsColon, Bool.or_eq_true] at hn
      simp only [Rx.runk] at h
      rcases hn with hna | hnb
      · exact ih a s _ t hna h
      · obtain ⟨u, hu, hb⟩ := runk_suffix f a s _ t h
        exact hu.subset (ih b u k t hnb hb)
    | alt a b =>
      simp only [Rx.needsColon, Bool.and_eq_true] at hn
      simp only [Rx.runk] at h
      cases ha : Rx.runk f a s k with
      | some v =>
        rw [ha] at h
        simp only [Option.orElse] at h
        exact ih a s k t hn.1 (ha.trans h)
      | none =>
        rw [ha] at h
        simp only [Option.orElse] at h
        exact ih b s k t hn.2 h
    | opt a => exact absurd hn (by simp [Rx.needsColon])
    | plus a =>
      have hna : a.needsColon = true := by simpa [Rx.needsColon] using hn
      simp only [Rx.runk] at h
      exact ih a s _ t hna h
    | upTo n a => exact absurd hn (by simp [Rx.needsColon])
    | eos => exact absurd hn (by simp [Rx.needsColon])

/-- The word-numbers pattern requires a colon, whatever the token list is. -/
theorem word_numbers_needsColon (tokens : List String) :
    (word_numbers_regex tokens).needsColon = true := by
  simp [word_numbers_regex, Rx.needsColon]

/-- The word-numbers pattern cannot match a title without a colon. -/
theorem rxMatch_word_numbers_no_colon (tokens : List String) (s : String)
    (hc : (':' ∈ s.toList) → False) :
    rxMatch (word_numbers_regex tokens) s = false := by
  cases hm : rxMatch (word_numbers_regex tokens) s with
  | false => rfl
  | true =>
    exfalso
    unfold rxMatch Rx.matchRem at hm
    obtain ⟨t, ht⟩ := Option.isSome_iff_exists.mp hm
    exact hc (runk_needsColon _ _ _ _ t (word_numbers_needsColon tokens) ht)

/-- C10: a record whose raw title is null, for a manga with no `empty`,
`noformat` or `custom` override, resolves to a null title: the null is
`str()`-coerced to `"None"`, no ladder pattern matches it (the word-numbers
pattern needs a colon), and the final cleanup maps `"none"` to `None`. -/
theorem null_title_resolves_to_none :
    ∀ (cfg : OverrideConfig) (chapter : Chapter) (nums : List (Option String)),
      chapter.chapter_title = none →
      cfg.empty.contains chapter.manga_id = false →
      cfg.noformat.contains chapter.manga_id = false →
      lookupAssoc cfg.custom chapter.manga_id = none →
      normalise_chapter_title cfg chapter nums = none := by
  intro cfg chapter nums ht he hn hc
  unfold normalise_chapter_title
  rw [ht, he, hn, hc]
  simp only [Bool.false_and, Bool.false_or]
  rw [if_neg (by decide), if_neg (by simp)]
  cases hnw : cfg.num2words with
  | none => rfl
  | some tokens =>
    simp only [wordNumbersSpec]
    rw [rxMatch_word_numbers_no_colon tokens (pyTrim (pyStr none)) (by decide)]
    rfl

/-- C10 witness: a concrete null-title record with no overrides resolves to
a null title. -/
theorem null_title_resolves_to_none_witness :
    normalise_chapter_title noOverrides (testChapter "c9" "w" (some "1") none)
      [some "1"] = none :=
  null_title_resolves_to_none noOverrides (testChapter "c9" "w" (some "1") none)
    [some "1"] rfl rfl rfl rfl

/-- C8 counterexample: with title `"One-Shot"`, `manga_id` in the `empty`
override set and a fully-null number list, title resolution returns
`"One-Shot"`, not `None`: rule 1 requires *no* null in the number list. -/
theorem fully_null_numbers_skip_empty_rule :
    normalise_chapter_title ⟨[], [], ["m"], [], [], none⟩
      (testChapter "c1" "m" (some "1") (some "One-Shot")) [none] =
      some "One-Shot" ∧
    normalise_chapter_title ⟨[], [], ["m"], [], [], none⟩
      (testChapter "c1" "m" (some "1") (some "One-Shot")) [none] ≠ none := by
  constructor
  · rfl
  · intro h
    have h1 : normalise_chapter_title ⟨[], [], ["m"], [], [], none⟩
        (testChapter "c1" "m" (some "1") (some "One-Shot")) [none] =
        some "One-Shot" := rfl
    exact absurd (h1.symm.trans h) (by simp)

/-- C8 (amended): for a record titled `"One-Shot"` whose manga is in the
`empty` override set (and no other title override applies), rule 1 fires
exactly when the resolved number list contains no null: a list containing a
null leaves the title to fall through the ladder unmodified, while a
null-free list makes the title `None`. -/
theorem empty_override_rule_one_behaviour :
    ∀ (cfg : OverrideConfig) (chapter : Chapter) (nums : List (Option String)),
      chapter.chapter_title = some "One-Shot" →
      cfg.empty.contains chapter.manga_id = true →
      cfg.noformat.contains chapter.manga_id = false →
      lookupAssoc cfg.custom chapter.manga_id = none →
      ((nums.contains none = true →
        normalise_chapter_title cfg chapter nums = some "One-Shot") ∧
       (nums.contains none = false →
        normalise_chapter_title cfg chapter nums = none)) := by
  intro cfg chapter nums ht he hn hc
  constructor
  · intro hnull
    unfold normalise_chapter_title
    rw [ht, he, hn, hc, hnull]
    simp only [Bool.not_true, Bool.and_false, Bool.false_or]
    rw [if_neg (by decide), if_neg (by simp)]
    cases hnw : cfg.num2words with
    | none => rfl
    | some tokens =>
      simp only [wordNumbersSpec]
      rw [rxMatch_word_numbers_no_colon tokens (pyTrim (pyStr (some "One-Shot")))
        (by decide)]
      rfl
  · intro hnonull
    unfold normalise_chapter_title
    rw [ht, he, hnonull]
    rfl

/-- C8 witness: the rule-1 theorem at a concrete `empty`-manga record, for a
fully-null and for a null-free number list. -/
theorem empty_override_rule_one_behaviour_witness :
    normalise_chapter_title ⟨[], [], ["m2"], [], [], none⟩
      (testChapter "c2" "m2" (some "1") (some "One-Shot")) [none] =
      some "One-Shot" ∧
    normalise_chapter_title ⟨[], [], ["m2"], [], [], none⟩
      (testChapter "c2" "m2" (some "1") (some "One-Shot")) [some "1"] = none := by
  constructor
  · exact (empty_override_rule_one_behaviour ⟨[], [], ["m2"], [], [], none⟩
      (testChapter "c2" "m2" (some "1") (some "One-Shot")) [none]
      rfl rfl rfl rfl).1 rfl
  · exact (empty_override_rule_one_behaviour ⟨[], [], ["m2"], [], [], none⟩
      (testChapter "c2" "m2" (some "1") (some "One-Shot")) [some "1"]
      rfl rfl rfl rfl).2 rfl

end Mangaplus
